import Mathlib

/-!
Verification of the geometry, target-assignment, loss-aggregation and NMS core
of `src/yolo.py` against its specification.

Modelling conventions:
* real-valued tensors entries are embedded as rationals (`ℚ`); the float
  literal `1e-7` is embedded as the rational `1/10000000`;
* a box is the four trailing tensor entries `box[...,0..3]` (`Box4`);
* a per-image prediction slice of shape `(A, gh, gw, 5+C)` that the decoder
  flattens with `view(-1, 5+C)` (yolo.py line 278) is presented as the list of
  its `A*gh*gw` flattened rows (`List Cand`), each row split as
  `box / objness / class scores` exactly as lines 279-281 do;
* the mutable target tensor `t` of `YOLOLoss.forward` is a function
  `anchor → row → col → channel → ℚ` updated functionally (`tupdate`);
* a Python/PyTorch runtime error (out-of-range advanced index, argmax over an
  empty tensor) is modelled by `Option`: `none` means the call raises.
-/

namespace Yolo

/-- Trailing 4-vector of a tensor row: `box[...,0]`, ..., `box[...,3]`. -/
structure Box4 where
  b0 : ℚ
  b1 : ℚ
  b2 : ℚ
  b3 : ℚ
deriving DecidableEq, Repr

/-- yolo.py lines 81-88: `xywh_to_xyxy` reads the row as
`(x_center, y_center, w, h)` and returns `(x1, y1, x2, y2)`. -/
def xywh_to_xyxy (b : Box4) : Box4 :=
  ⟨b.b0 - b.b2 / 2, b.b1 - b.b3 / 2, b.b0 + b.b2 / 2, b.b1 + b.b3 / 2⟩

/-- Tensor.clamp(min=0) on a scalar entry. -/
def clampMin0 (q : ℚ) : ℚ := max q 0

/-- Default epsilon of `bbox_iou` (yolo.py line 91, `eps=1e-7`); every call
site uses the default. -/
def eps : ℚ := 1 / 10000000

/-- yolo.py lines 103-110 on two corner-form rows: clamped intersection area. -/
def iou_inter (c1 c2 : Box4) : ℚ :=
  clampMin0 (min c1.b2 c2.b2 - max c1.b0 c2.b0) *
    clampMin0 (min c1.b3 c2.b3 - max c1.b1 c2.b1)

/-- yolo.py lines 112-113: per-box clamped area of a corner-form row. -/
def corner_area (c : Box4) : ℚ :=
  clampMin0 (c.b2 - c.b0) * clampMin0 (c.b3 - c.b1)

/-- yolo.py lines 91-116: `bbox_iou`.  The guards on lines 97-100 test
`box.shape[-1] == 4`, which holds for every box row (each has exactly four
coordinates), so BOTH inputs are unconditionally passed through
`xywh_to_xyxy`, i.e. the function always interprets its inputs as
center-form, whatever form the caller supplied. -/
def bbox_iou (box1 box2 : Box4) : ℚ :=
  let b1 := xywh_to_xyxy box1
  let b2 := xywh_to_xyxy box2
  iou_inter b1 b2 / (corner_area b1 + corner_area b2 - iou_inter b1 b2 + eps)

/-- Modelled from the spec (section 4.1): IoU computed directly on two
corner-form boxes, `intersection = max(0, min(x2)−max(x1)) × max(0,
min(y2)−max(y1))`, `union = area(A) + area(B) − intersection + eps`.  This is
the reading that claims C2 and C3 assert `bbox_iou` realises on corner-form
input; it exists only to be compared with `bbox_iou`. -/
def corner_iou (c1 c2 : Box4) : ℚ :=
  let inter := iou_inter c1 c2
  inter / ((c1.b2 - c1.b0) * (c1.b3 - c1.b1) +
           (c2.b2 - c2.b0) * (c2.b3 - c2.b1) - inter + eps)

/-- One flattened row of a per-image prediction slice: yolo.py lines 279-281
split `flat` into `boxes = flat[:, :4]`, `objness = flat[:, 4]`,
`class_scores = flat[:, 5:]`. -/
structure Cand where
  box : Box4
  objness : ℚ
  classScores : List ℚ
deriving DecidableEq, Repr

/-- One output detection row `[x1, y1, x2, y2, confidence, class]`
(yolo.py line 308). -/
structure Det where
  box : Box4
  score : ℚ
  cls : ℕ
deriving DecidableEq, Repr

/-- Maximum value together with the index of its FIRST occurrence, as
`torch.max(-, dim)` / `torch.argmax` return; `none` on an empty list, where
torch raises. -/
def argmaxVal : List ℚ → Option (ℚ × ℕ)
  | [] => none
  | a :: t =>
    match argmaxVal t with
    | none => some (a, 0)
    | some (v, m) => if a < v then some (v, m + 1) else some (a, 0)

/-- Index of the first maximum (`torch.argmax`); `none` on empty input. -/
def argmaxFirst (l : List ℚ) : Option ℕ := (argmaxVal l).map Prod.snd

/-- `class_conf` of one row, yolo.py line 282 (`torch.max(class_scores,
dim=1)` values).  A row with no class channel would make torch raise; the
default 0 of that unreachable case is never exercised by any theorem about
tensors with at least one class. -/
def class_max (l : List ℚ) : ℚ := ((argmaxVal l).map Prod.fst).getD 0

/-- `class_pred` of one row, yolo.py line 282 (argmax index, first maximal
class on ties). -/
def class_argmax (l : List ℚ) : ℕ := ((argmaxVal l).map Prod.snd).getD 0

/-- Candidate score `objness * class_conf` (yolo.py line 284). -/
def cand_score (c : Cand) : ℚ := c.objness * class_max c.classScores

/-- Sort detections by descending score (yolo.py line 298,
`scores.sort(descending=True)` with the boxes and classes permuted along). -/
def sortDesc (l : List Det) : List Det :=
  List.insertionSort (fun d e : Det => e.score ≤ d.score) l

/-- Greedy suppression loop of yolo.py lines 302-321: keep the head of the
(descending-sorted) list, drop every later candidate whose `bbox_iou` with
the kept box reaches `iou_threshold` (line 317 keeps `ious < iou_threshold`),
repeat.  The Python `while` terminates because each round removes at least
the kept element; we drive the recursion with a fuel initialised to the list
length, which the loop can never exhaust (each recursive call consumes one
unit of fuel and at least one list element) -- `nmsGo_fuel` below proves the
result does not depend on the fuel once it is at least the length. -/
def nmsGo (iouThr : ℚ) : ℕ → List Det → List Det
  | _, [] => []
  | 0, _ :: _ => []
  | n + 1, d :: rest =>
      d :: nmsGo iouThr n (rest.filter fun r => bbox_iou d.box r.box < iouThr)

/-- yolo.py lines 274-323, the per-image body of `non_max_suppression`:
filter by `scores > conf_threshold` (line 285), convert survivors to corner
form (line 295), sort by descending score (lines 298-300), then greedy
suppression.  An empty survivor set yields the empty detection list
(lines 290-291). -/
def non_max_suppression (pred : List Cand) (conf_threshold iou_threshold : ℚ) :
    List Det :=
  let survivors := pred.filter fun c => conf_threshold < cand_score c
  let dets := survivors.map fun c =>
    Det.mk (xywh_to_xyxy c.box) (cand_score c) (class_argmax c.classScores)
  nmsGo iou_threshold (sortDesc dets).length (sortDesc dets)

/-- One ground-truth row `cls, x, y, w, h` (yolo.py line 205). -/
structure GT where
  cls : ℚ
  x : ℚ
  y : ℚ
  w : ℚ
  h : ℚ
deriving DecidableEq, Repr

/-- Per-image target tensor of `YOLOLoss.forward`, as a function
`anchor → row (gj) → col (gi) → channel → value`. -/
def Target : Type := ℕ → ℕ → ℕ → ℕ → ℚ

/-- Functional update of one entry of the target tensor
(`t[b, a0, j0, i0, c0] = v`). -/
def tupdate (t : Target) (a0 j0 i0 c0 : ℕ) (v : ℚ) : Target :=
  fun a j i c => if c = c0 ∧ a = a0 ∧ j = j0 ∧ i = i0 then v else t a j i c

/-- Python `int()` applied to a rational: truncation toward zero
(yolo.py lines 209-210, 234). -/
def pyInt (q : ℚ) : ℤ := if 0 ≤ q then ⌊q⌋ else ⌈q⌉

/-- PyTorch advanced-index semantics for one integer index into a dimension
of size `n`: indices in `[0, n)` are used as-is, indices in `[-n, 0)` wrap to
`n + i`, anything else raises IndexError (modelled as `none`). -/
def pyIndex (n : ℕ) (i : ℤ) : Option ℕ :=
  if 0 ≤ i ∧ i < (n : ℤ) then some i.toNat
  else if -(n : ℤ) ≤ i ∧ i < 0 then some ((n : ℤ) + i).toNat
  else none

/-- yolo.py lines 204-234, the body of the per-box loop of
`YOLOLoss.forward`: map the normalized box into grid units, pick the owning
cell by truncation, pick the best anchor by `bbox_iou` between the candidate
row `(gx-gi, gy-gj, gw_box, gh_box)` and the anchor rows `(0, 0, aw, ah)`
(lines 215-223, first maximal index), then write objectness, offsets, sizes
and the one-hot class into the target tensor.  `none` models the PyTorch
IndexError raised when `gi`, `gj` or `5 + int(cls)` falls outside its
dimension, and the torch error on `argmax` over an empty anchor set. -/
def assignOne (anchors : List (ℚ × ℚ)) (gh gw C : ℕ) (t : Target) (g : GT) :
    Option Target :=
  let gx := g.x * gw
  let gy := g.y * gh
  let gi := pyInt gx
  let gj := pyInt gy
  let gw_box := g.w * gw
  let gh_box := g.h * gh
  let box : Box4 := ⟨gx - gi, gy - gj, gw_box, gh_box⟩
  (argmaxFirst (anchors.map fun a => bbox_iou box ⟨0, 0, a.1, a.2⟩)).bind fun best_n =>
  (pyIndex gw gi).bind fun i =>
  (pyIndex gh gj).bind fun j =>
  (pyIndex (5 + C) (5 + pyInt g.cls)).bind fun c =>
  some (tupdate (tupdate (tupdate (tupdate (tupdate (tupdate t
    best_n j i 4 1)
    best_n j i 0 (gx - gi))
    best_n j i 1 (gy - gj))
    best_n j i 2 gw_box)
    best_n j i 3 gh_box)
    best_n j i c 1)

/-- yolo.py lines 199-234 for one image: start from the all-zero target
tensor (line 200) and fold the per-box assignment over the ground-truth
list. -/
def assign_targets (anchors : List (ℚ × ℚ)) (gh gw C : ℕ) (gts : List GT) :
    Option Target :=
  gts.foldlM (assignOne anchors gh gw C) fun _ _ _ _ => 0

/-- yolo.py lines 236-261 for one image: aggregation of the four loss terms
from a prediction slice `p` and a target slice `t` of shape
`(A, gh, gw, 5+C)`.  `.pow(2).sum(-1)` over the two xy and the two wh
channels appears as the explicit two-term sums. -/
def compute_loss (lambda_box lambda_obj lambda_noobj lambda_cls : ℚ)
    (A gh gw C : ℕ) (p t : Target) : ℚ :=
  let loss_box := lambda_box *
    ∑ a ∈ Finset.range A, ∑ j ∈ Finset.range gh, ∑ i ∈ Finset.range gw,
      t a j i 4 * (((p a j i 0 - t a j i 0) ^ 2 + (p a j i 1 - t a j i 1) ^ 2) +
        ((p a j i 2 - t a j i 2) ^ 2 + (p a j i 3 - t a j i 3) ^ 2))
  let loss_obj := lambda_obj *
    ∑ a ∈ Finset.range A, ∑ j ∈ Finset.range gh, ∑ i ∈ Finset.range gw,
      t a j i 4 * (p a j i 4 - 1) ^ 2
  let loss_noobj := lambda_noobj *
    ∑ a ∈ Finset.range A, ∑ j ∈ Finset.range gh, ∑ i ∈ Finset.range gw,
      (1 - t a j i 4) * p a j i 4 ^ 2
  let loss_cls := lambda_cls *
    ∑ a ∈ Finset.range A, ∑ j ∈ Finset.range gh, ∑ i ∈ Finset.range gw,
      t a j i 4 * ∑ ch ∈ Finset.range C, (p a j i (5 + ch) - t a j i (5 + ch)) ^ 2
  loss_box + loss_obj + loss_noobj + loss_cls

/-- yolo.py lines 190-261 for one image: `YOLOLoss.forward` builds the target
tensor from the ground-truth list, then aggregates the loss against the
prediction slice; `none` when target assignment raises. -/
def YOLOLoss_forward (lambda_box lambda_obj lambda_noobj lambda_cls : ℚ)
    (anchors : List (ℚ × ℚ)) (gh gw C : ℕ) (p : Target) (gts : List GT) :
    Option ℚ :=
  (assign_targets anchors gh gw C gts).map fun t =>
    compute_loss lambda_box lambda_obj lambda_noobj lambda_cls
      anchors.length gh gw C p t

/-! ### Helper lemmas: geometry -/

theorem clampMin0_nonneg (q : ℚ) : 0 ≤ clampMin0 q := le_max_right q 0

theorem clampMin0_mono {a b : ℚ} (h : a ≤ b) : clampMin0 a ≤ clampMin0 b :=
  max_le_max h le_rfl

theorem clampMin0_of_nonpos {q : ℚ} (h : q ≤ 0) : clampMin0 q = 0 :=
  max_eq_right h

theorem corner_area_nonneg (c : Box4) : 0 ≤ corner_area c :=
  mul_nonneg (clampMin0_nonneg _) (clampMin0_nonneg _)

theorem iou_inter_nonneg (c1 c2 : Box4) : 0 ≤ iou_inter c1 c2 :=
  mul_nonneg (clampMin0_nonneg _) (clampMin0_nonneg _)

theorem iou_inter_le_area (c1 c2 : Box4) : iou_inter c1 c2 ≤ corner_area c2 := by
  unfold iou_inter corner_area
  refine mul_le_mul (clampMin0_mono ?_) (clampMin0_mono ?_)
    (clampMin0_nonneg _) (clampMin0_nonneg _)
  · have h1 : min c1.b2 c2.b2 ≤ c2.b2 := min_le_right _ _
    have h2 : c2.b0 ≤ max c1.b0 c2.b0 := le_max_right _ _
    linarith
  · have h1 : min c1.b3 c2.b3 ≤ c2.b3 := min_le_right _ _
    have h2 : c2.b1 ≤ max c1.b1 c2.b1 := le_max_right _ _
    linarith

theorem eps_pos : (0 : ℚ) < eps := by norm_num [eps]

theorem iou_denom_pos (c1 c2 : Box4) :
    0 < corner_area c1 + corner_area c2 - iou_inter c1 c2 + eps := by
  have h1 := corner_area_nonneg c1
  have h2 := iou_inter_le_area c1 c2
  have h3 := eps_pos
  linarith

theorem xyxy_width (b : Box4) :
    (xywh_to_xyxy b).b2 - (xywh_to_xyxy b).b0 = b.b2 := by
  simp only [xywh_to_xyxy]; ring

theorem xyxy_height (b : Box4) :
    (xywh_to_xyxy b).b3 - (xywh_to_xyxy b).b1 = b.b3 := by
  simp only [xywh_to_xyxy]; ring

theorem iou_inter_comm (c1 c2 : Box4) : iou_inter c1 c2 = iou_inter c2 c1 := by
  unfold iou_inter
  rw [min_comm c1.b2 c2.b2, max_comm c1.b0 c2.b0,
    min_comm c1.b3 c2.b3, max_comm c1.b1 c2.b1]

theorem bbox_iou_inter_zero {b1 b2 : Box4}
    (h : iou_inter (xywh_to_xyxy b1) (xywh_to_xyxy b2) = 0) :
    bbox_iou b1 b2 = 0 := by
  simp only [bbox_iou, h, zero_div]

/-! ### Claim theorems: geometry (C3, C7, C8) -/

/-- Claim C3: the claim says `bbox_iou` detects corner-form input, converts
only if needed, and returns the geometric corner IoU.  In the code the
form test `box.shape[-1] == 4` is always true, so a corner-form pair is
re-interpreted as center-form and re-converted; on corner boxes
`(0,0,2,2)` and `(1,1,3,3)` (whose corner IoU is `1/(7+eps)`, since the
intersection is the unit square `[1,2]×[1,2]` and the areas are 4 and 4)
the code instead returns `(9/4)/(43/4+eps)`.  This contradicts the
function's own docstring, which promises to accept `(x1,y1,x2,y2)` form. -/
theorem C3_bug_eval :
    bbox_iou ⟨0, 0, 2, 2⟩ ⟨1, 1, 3, 3⟩ = 22500000 / 107500001 ∧
    corner_iou ⟨0, 0, 2, 2⟩ ⟨1, 1, 3, 3⟩ = 10000000 / 70000001 ∧
    bbox_iou ⟨0, 0, 2, 2⟩ ⟨1, 1, 3, 3⟩ ≠ corner_iou ⟨0, 0, 2, 2⟩ ⟨1, 1, 3, 3⟩ := by
  refine ⟨?_, ?_, ?_⟩ <;>
    norm_num [bbox_iou, corner_iou, iou_inter, corner_area, clampMin0,
      xywh_to_xyxy, eps, max_def, min_def]

/-- Claim C7: `bbox_iou` is symmetric, `iou(A,B) = iou(B,A)` for all box
pairs (both inputs are converted the same way, and intersection and union
are symmetric in the two boxes). -/
theorem C7_iou_symm (b1 b2 : Box4) : bbox_iou b1 b2 = bbox_iou b2 b1 := by
  simp only [bbox_iou]
  rw [iou_inter_comm, add_comm (corner_area (xywh_to_xyxy b1))]

/-- Claim C8: for every pair of boxes `bbox_iou` returns a value and never
divides by zero (the denominator is strictly positive thanks to the epsilon),
a box of zero width or height makes the IoU exactly 0, and two boxes with no
spatial overlap (the converted corner intervals touch or are disjoint on
either axis) make the IoU exactly 0. -/
theorem C8_degenerate (b1 b2 : Box4) :
    (0 < corner_area (xywh_to_xyxy b1) + corner_area (xywh_to_xyxy b2)
        - iou_inter (xywh_to_xyxy b1) (xywh_to_xyxy b2) + eps) ∧
    ((b1.b2 = 0 ∨ b1.b3 = 0 ∨ b2.b2 = 0 ∨ b2.b3 = 0) → bbox_iou b1 b2 = 0) ∧
    ((min (xywh_to_xyxy b1).b2 (xywh_to_xyxy b2).b2
        ≤ max (xywh_to_xyxy b1).b0 (xywh_to_xyxy b2).b0 ∨
      min (xywh_to_xyxy b1).b3 (xywh_to_xyxy b2).b3
        ≤ max (xywh_to_xyxy b1).b1 (xywh_to_xyxy b2).b1) →
      bbox_iou b1 b2 = 0) := by
  refine ⟨iou_denom_pos _ _, ?_, ?_⟩
  · intro h
    apply bbox_iou_inter_zero
    have hx1 := xyxy_width b1
    have hx2 := xyxy_width b2
    have hy1 := xyxy_height b1
    have hy2 := xyxy_height b2
    have hminx1 : min (xywh_to_xyxy b1).b2 (xywh_to_xyxy b2).b2 ≤ (xywh_to_xyxy b1).b2 :=
      min_le_left _ _
    have hminx2 : min (xywh_to_xyxy b1).b2 (xywh_to_xyxy b2).b2 ≤ (xywh_to_xyxy b2).b2 :=
      min_le_right _ _
    have hmaxx1 : (xywh_to_xyxy b1).b0 ≤ max (xywh_to_xyxy b1).b0 (xywh_to_xyxy b2).b0 :=
      le_max_left _ _
    have hmaxx2 : (xywh_to_xyxy b2).b0 ≤ max (xywh_to_xyxy b1).b0 (xywh_to_xyxy b2).b0 :=
      le_max_right _ _
    have hminy1 : min (xywh_to_xyxy b1).b3 (xywh_to_xyxy b2).b3 ≤ (xywh_to_xyxy b1).b3 :=
      min_le_left _ _
    have hminy2 : min (xywh_to_xyxy b1).b3 (xywh_to_xyxy b2).b3 ≤ (xywh_to_xyxy b2).b3 :=
      min_le_right _ _
    have hmaxy1 : (xywh_to_xyxy b1).b1 ≤ max (xywh_to_xyxy b1).b1 (xywh_to_xyxy b2).b1 :=
      le_max_left _ _
    have hmaxy2 : (xywh_to_xyxy b2).b1 ≤ max (xywh_to_xyxy b1).b1 (xywh_to_xyxy b2).b1 :=
      le_max_right _ _
    unfold iou_inter
    rcases h with h | h | h | h
    · rw [clampMin0_of_nonpos (by linarith), zero_mul]
    · rw [clampMin0_of_nonpos (q := min (xywh_to_xyxy b1).b3 (xywh_to_xyxy b2).b3
        - max (xywh_to_xyxy b1).b1 (xywh_to_xyxy b2).b1) (by linarith), mul_zero]
    · rw [clampMin0_of_nonpos (by linarith), zero_mul]
    · rw [clampMin0_of_nonpos (q := min (xywh_to_xyxy b1).b3 (xywh_to_xyxy b2).b3
        - max (xywh_to_xyxy b1).b1 (xywh_to_xyxy b2).b1) (by linarith), mul_zero]
  · intro h
    apply bbox_iou_inter_zero
    unfold iou_inter
    rcases h with h | h
    · rw [clampMin0_of_nonpos (by linarith), zero_mul]
    · rw [clampMin0_of_nonpos (q := min (xywh_to_xyxy b1).b3 (xywh_to_xyxy b2).b3
        - max (xywh_to_xyxy b1).b1 (xywh_to_xyxy b2).b1) (by linarith), mul_zero]

/-- Witness for C8: a zero-width box and a fully disjoint pair both get
IoU exactly 0, and the denominator at those inputs is positive. -/
theorem C8_witness :
    bbox_iou ⟨0, 0, 0, 5⟩ ⟨0, 0, 2, 2⟩ = 0 ∧
    bbox_iou ⟨0, 0, 1, 1⟩ ⟨10, 0, 1, 1⟩ = 0 ∧
    (0 < corner_area (xywh_to_xyxy ⟨0, 0, 0, 5⟩) + corner_area (xywh_to_xyxy ⟨0, 0, 2, 2⟩)
        - iou_inter (xywh_to_xyxy ⟨0, 0, 0, 5⟩) (xywh_to_xyxy ⟨0, 0, 2, 2⟩) + eps) :=
  ⟨(C8_degenerate ⟨0, 0, 0, 5⟩ ⟨0, 0, 2, 2⟩).2.1 (Or.inl rfl),
   (C8_degenerate ⟨0, 0, 1, 1⟩ ⟨10, 0, 1, 1⟩).2.2
     (Or.inl (by norm_num [xywh_to_xyxy, min_def, max_def])),
   (C8_degenerate ⟨0, 0, 0, 5⟩ ⟨0, 0, 2, 2⟩).1⟩

/-! ### Helper lemmas: NMS -/

instance : IsTotal Det fun d e => e.score ≤ d.score :=
  ⟨fun a b => le_total b.score a.score⟩

instance : IsTrans Det fun d e => e.score ≤ d.score :=
  ⟨fun _ _ _ h1 h2 => le_trans h2 h1⟩

theorem sortDesc_sorted (l : List Det) :
    List.Pairwise (fun d e : Det => e.score ≤ d.score) (sortDesc l) :=
  List.sorted_insertionSort _ l

theorem nmsGo_sublist (thr : ℚ) : ∀ (n : ℕ) (l : List Det), List.Sublist (nmsGo thr n l) l := by
  intro n
  induction n with
  | zero => intro l; cases l <;> simp [nmsGo]
  | succ n ih =>
    intro l
    cases l with
    | nil => simp [nmsGo]
    | cons d rest =>
      have hstep : nmsGo thr (n + 1) (d :: rest) =
          d :: nmsGo thr n (rest.filter fun r => bbox_iou d.box r.box < thr) := rfl
      rw [hstep]
      exact List.Sublist.cons₂ d ((ih _).trans (List.filter_sublist _))

/-- The fuel passed to `nmsGo` is irrelevant once it is at least the list
length, so driving the Python `while` loop with fuel `l.length` is faithful:
the loop consumes at least one element per round and can never hit the
artificial `0` case. -/
theorem nmsGo_fuel (thr : ℚ) : ∀ (n m : ℕ) (l : List Det),
    l.length ≤ n → l.length ≤ m → nmsGo thr n l = nmsGo thr m l := by
  intro n
  induction n with
  | zero =>
    intro m l hn _
    rw [List.length_eq_zero.mp (Nat.le_zero.mp hn)]
    cases m <;> rfl
  | succ n ih =>
    intro m l hn hm
    cases l with
    | nil => cases m <;> rfl
    | cons d rest =>
      cases m with
      | zero => simp at hm
      | succ m =>
        show d :: nmsGo thr n (rest.filter fun r => bbox_iou d.box r.box < thr) =
          d :: nmsGo thr m (rest.filter fun r => bbox_iou d.box r.box < thr)
        have hlen := List.length_filter_le
          (fun r => decide (bbox_iou d.box r.box < thr)) rest
        simp only [List.length_cons, Nat.succ_le_succ_iff] at hn hm
        rw [ih m _ (le_trans hlen hn) (le_trans hlen hm)]

/-! ### Claim theorems: NMS (C2, C4, C9) -/

/-- Claim C2 fails on the code: inside the suppression loop (yolo.py line
316) `bbox_iou` is applied to boxes that are ALREADY in corner form, but the
function unconditionally re-interprets them as center-form, so the
suppression test is done on the wrong geometry.  On this concrete two-
candidate input (conf 0.5, iou 0.5) both detections are kept — their mangled
IoU is 0 — yet the corner-form IoU of the two returned boxes
(−100,0,1,1) and (−60,0,1,1) is 61/(101+eps) ≈ 0.604 > 0.5, violating the
claimed invariant that no two returned detections overlap above the
threshold. -/
theorem C2_bug_eval :
    non_max_suppression
        [⟨⟨-99/2, 1/2, 101, 1⟩, 9/10, [1]⟩, ⟨⟨-59/2, 1/2, 61, 1⟩, 8/10, [1]⟩]
        (1/2) (1/2) =
      [⟨⟨-100, 0, 1, 1⟩, 9/10, 0⟩, ⟨⟨-60, 0, 1, 1⟩, 4/5, 0⟩] ∧
    1/2 < corner_iou ⟨-100, 0, 1, 1⟩ ⟨-60, 0, 1, 1⟩ := by
  constructor
  · norm_num [non_max_suppression, cand_score, class_max, class_argmax,
      argmaxVal, sortDesc, List.insertionSort, List.orderedInsert, nmsGo,
      xywh_to_xyxy, List.filter, bbox_iou, iou_inter, corner_area, clampMin0,
      eps, max_def, min_def]
  · norm_num [corner_iou, iou_inter, clampMin0, eps, max_def, min_def]

/-- Claim C4 fails as stated: the decoder applies no squashing to the raw
objectness and class scores, so a candidate's score `objness * class_conf`
can exceed 1.1.  A single candidate with objectness 2 and class score 2 has
score 4 > 1.1 and survives the `confidence_threshold = 1.1` filter, so the
returned list is non-empty. -/
theorem C4_counterexample :
    non_max_suppression [⟨⟨0, 0, 1, 1⟩, 2, [2]⟩] (11 / 10) (1 / 2) =
      [⟨⟨-1/2, -1/2, 1/2, 1/2⟩, 4, 0⟩] := by
  norm_num [non_max_suppression, cand_score, class_max, class_argmax,
    argmaxVal, sortDesc, List.insertionSort, List.orderedInsert, nmsGo,
    xywh_to_xyxy, List.filter]

/-- Claim C4, amended: with `confidence_threshold = 1.1` the decoder returns
the empty detection list whenever every candidate's score
`objness * class_conf` is at most 1.1 (in particular whenever scores lie in
[0,1], the situation the spec presumed); since raw predictions are not
squashed this bound is a genuine hypothesis, not a tautology. -/
theorem C4_amended_thm (pred : List Cand) (iouThr : ℚ)
    (h : ∀ c ∈ pred, cand_score c ≤ 11 / 10) :
    non_max_suppression pred (11 / 10) iouThr = [] := by
  have hf : pred.filter (fun c => decide ((11 : ℚ) / 10 < cand_score c)) = [] := by
    rw [List.filter_eq_nil_iff]
    intro c hc
    simpa using not_lt.2 (h c hc)
  simp only [non_max_suppression, hf, List.map_nil]
  rfl

/-- Witness for C4's amended theorem at a concrete input whose only
candidate scores 1/2. -/
theorem C4_witness :
    non_max_suppression [⟨⟨0, 0, 1, 1⟩, 1/2, [1]⟩] (11 / 10) (1 / 2) = [] :=
  C4_amended_thm [⟨⟨0, 0, 1, 1⟩, 1/2, [1]⟩] (1 / 2) (by
    intro c hc
    simp only [List.mem_singleton] at hc
    subst hc
    norm_num [cand_score, class_max, argmaxVal])

/-- Claim C9: the detection list returned by the decoder is ordered by
descending confidence score — the survivors are sorted descending before the
greedy loop, and the loop only ever removes elements (its output is a
sublist of its sorted input), so every earlier kept detection scores at
least as much as every later one. -/
theorem C9_sorted (pred : List Cand) (confThr iouThr : ℚ) :
    List.Pairwise (fun d e : Det => e.score ≤ d.score)
      (non_max_suppression pred confThr iouThr) :=
  List.Pairwise.sublist (nmsGo_sublist _ _ _) (sortDesc_sorted _)

/-! ### Helper lemmas: target assignment -/

theorem argmaxVal_isSome (l : List ℚ) (hl : l ≠ []) :
    ∃ v n, argmaxVal l = some (v, n) := by
  cases l with
  | nil => exact absurd rfl hl
  | cons a t =>
    cases h : argmaxVal t with
    | none => exact ⟨a, 0, by simp [argmaxVal, h]⟩
    | some p =>
      obtain ⟨v, m⟩ := p
      by_cases hav : a < v
      · exact ⟨v, m + 1, by simp [argmaxVal, h, hav]⟩
      · exact ⟨a, 0, by simp [argmaxVal, h, hav]⟩

theorem argmaxVal_bound (l : List ℚ) : ∀ (v : ℚ) (n : ℕ),
    argmaxVal l = some (v, n) → n < l.length := by
  induction l with
  | nil => intro v n h; simp [argmaxVal] at h
  | cons a t ih =>
    intro v n h
    cases ht : argmaxVal t with
    | none =>
      simp only [argmaxVal, ht, Option.some.injEq, Prod.mk.injEq] at h
      simp [← h.2]
    | some p =>
      obtain ⟨w, m⟩ := p
      by_cases haw : a < w
      · simp only [argmaxVal, ht, if_pos haw, Option.some.injEq, Prod.mk.injEq] at h
        have := ih w m ht
        simp only [List.length_cons]
        omega
      · simp only [argmaxVal, ht, if_neg haw, Option.some.injEq, Prod.mk.injEq] at h
        simp [← h.2]

/-- Destructor for a successful per-box assignment: it names the chosen
anchor, cell and class channel and exposes the written tensor. -/
theorem assignOne_some (anchors : List (ℚ × ℚ)) (gh gw C : ℕ) (t : Target)
    (g : GT) (T : Target) (h : assignOne anchors gh gw C t g = some T) :
    ∃ bn i j c,
      argmaxFirst (anchors.map fun a =>
        bbox_iou ⟨g.x * gw - pyInt (g.x * gw), g.y * gh - pyInt (g.y * gh),
          g.w * gw, g.h * gh⟩ ⟨0, 0, a.1, a.2⟩) = some bn ∧
      pyIndex gw (pyInt (g.x * gw)) = some i ∧
      pyIndex gh (pyInt (g.y * gh)) = some j ∧
      pyIndex (5 + C) (5 + pyInt g.cls) = some c ∧
      T = tupdate (tupdate (tupdate (tupdate (tupdate (tupdate t
            bn j i 4 1)
            bn j i 0 (g.x * gw - pyInt (g.x * gw)))
            bn j i 1 (g.y * gh - pyInt (g.y * gh)))
            bn j i 2 (g.w * gw))
            bn j i 3 (g.h * gh))
            bn j i c 1 := by
  simp only [assignOne, Option.bind_eq_some, Option.some.injEq] at h
  obtain ⟨bn, hbn, i, hi, j, hj, c, hc, hT⟩ := h
  exact ⟨bn, i, j, c, hbn, hi, hj, hc, hT.symm⟩

/-- Constructor for a successful per-box assignment. -/
theorem assignOne_some_intro (anchors : List (ℚ × ℚ)) (gh gw C : ℕ)
    (t : Target) (g : GT) (bn i j c : ℕ)
    (hbn : argmaxFirst (anchors.map fun a =>
        bbox_iou ⟨g.x * gw - pyInt (g.x * gw), g.y * gh - pyInt (g.y * gh),
          g.w * gw, g.h * gh⟩ ⟨0, 0, a.1, a.2⟩) = some bn)
    (hi : pyIndex gw (pyInt (g.x * gw)) = some i)
    (hj : pyIndex gh (pyInt (g.y * gh)) = some j)
    (hc : pyIndex (5 + C) (5 + pyInt g.cls) = some c) :
    assignOne anchors gh gw C t g =
      some (tupdate (tupdate (tupdate (tupdate (tupdate (tupdate t
        bn j i 4 1)
        bn j i 0 (g.x * gw - pyInt (g.x * gw)))
        bn j i 1 (g.y * gh - pyInt (g.y * gh)))
        bn j i 2 (g.w * gw))
        bn j i 3 (g.h * gh))
        bn j i c 1) := by
  simp only [assignOne, hbn, hi, hj, hc, Option.some_bind]

/-- The write of one ground-truth box preserves the invariant that the
objectness channel only holds 0 or 1. -/
theorem assignOne_obj01 {anchors : List (ℚ × ℚ)} {gh gw C : ℕ}
    {t : Target} {g : GT} {T : Target}
    (h : assignOne anchors gh gw C t g = some T)
    (hinv : ∀ a j i, t a j i 4 = 0 ∨ t a j i 4 = 1) :
    ∀ a j i, T a j i 4 = 0 ∨ T a j i 4 = 1 := by
  obtain ⟨bn, i0, j0, c0, _, _, _, _, hT⟩ := assignOne_some _ _ _ _ _ _ _ h
  subst hT
  intro a j i
  simp only [tupdate]
  split_ifs with h1 h2 h3 h4 h5 h6
  · exact Or.inr rfl
  · exact absurd h2.1 (by omega)
  · exact absurd h3.1 (by omega)
  · exact absurd h4.1 (by omega)
  · exact h5.1.elim
  · exact Or.inr rfl
  · exact hinv a j i

/-- Invariant of the whole fold: the objectness channel of the assembled
target tensor only holds 0 or 1. -/
theorem assign_obj01 (anchors : List (ℚ × ℚ)) (gh gw C : ℕ) :
    ∀ (gts : List GT) (t0 T : Target),
      (∀ a j i, t0 a j i 4 = 0 ∨ t0 a j i 4 = 1) →
      List.foldlM (assignOne anchors gh gw C) t0 gts = some T →
      ∀ a j i, T a j i 4 = 0 ∨ T a j i 4 = 1 := by
  intro gts
  induction gts with
  | nil =>
    intro t0 T h0 hT
    rw [List.foldlM_nil] at hT
    cases hT
    exact h0
  | cons g rest ih =>
    intro t0 T h0 hT
    rw [List.foldlM_cons] at hT
    cases hstep : assignOne anchors gh gw C t0 g with
    | none => rw [hstep] at hT; simp at hT
    | some t1 =>
      rw [hstep] at hT
      exact ih t1 T (assignOne_obj01 hstep h0) hT

/-- If one ground-truth box makes the per-box step raise regardless of the
accumulated tensor, the whole fold raises. -/
theorem foldlM_mid_none (anchors : List (ℚ × ℚ)) (gh gw C : ℕ) (g : GT)
    (hbad : ∀ t, assignOne anchors gh gw C t g = none) :
    ∀ (pre post : List GT) (t0 : Target),
      List.foldlM (assignOne anchors gh gw C) t0 (pre ++ g :: post) = none := by
  intro pre
  induction pre with
  | nil =>
    intro post t0
    rw [List.nil_append, List.foldlM_cons, hbad t0]
    rfl
  | cons p rest ih =>
    intro post t0
    rw [List.cons_append, List.foldlM_cons]
    cases hstep : assignOne anchors gh gw C t0 p with
    | none => rfl
    | some t1 => exact ih post t1

/-- Objectness profile of the six writes of one assignment on a tensor
whose objectness channel is all-zero: channel 4 reads 1 exactly at the
written (anchor, cell) and 0 elsewhere (the class write lands on a channel
at least 5, the offset and size writes on channels 0-3). -/
theorem tupdate_chain_obj (t0 : Target) (bn j0 i0 ck : ℕ) (v0 v1 v2 v3 : ℚ)
    (hck : 5 ≤ ck) (hzero : ∀ a j i, t0 a j i 4 = 0) :
    ∀ a j i, (tupdate (tupdate (tupdate (tupdate (tupdate (tupdate t0
        bn j0 i0 4 1) bn j0 i0 0 v0) bn j0 i0 1 v1) bn j0 i0 2 v2)
        bn j0 i0 3 v3) bn j0 i0 ck 1) a j i 4 =
      if a = bn ∧ j = j0 ∧ i = i0 then 1 else 0 := by
  intro a j i
  by_cases hloc : a = bn ∧ j = j0 ∧ i = i0
  · obtain ⟨ha, hj, hi⟩ := hloc
    subst ha; subst hj; subst hi
    have hk4 : ¬((4 : ℕ) = ck) := by omega
    simp [tupdate, hk4]
  · have hni : ∀ c0 : ℕ, ¬(4 = c0 ∧ a = bn ∧ j = j0 ∧ i = i0) :=
      fun c0 hcon => hloc ⟨hcon.2.1, hcon.2.2.1, hcon.2.2.2⟩
    simp [tupdate, hni, hloc, hzero]

/-! ### Claim theorems: target assignment (C1, C5, C6, C10) -/

/-- Claim C1 fails on the code at the spec's own scenario: grid 13×13,
anchors [(1,1),(2,2),(3,3)], one box at center (0.5,0.5), size (0.1,0.1),
class 2.  The candidate box handed to `bbox_iou` is centred at its
within-cell offset (0.5,0.5) while the anchor boxes are centred at (0,0)
(yolo.py lines 215-219), so the shape comparison is shifted: the IoUs come
out ≈(0.186, 0.303, 0.188) and `argmax` selects anchor index 1, not the
claimed index 0 — the objectness written at anchor 0, cell (6,6) is 0 and
the one written at anchor 1 is 1. -/
theorem C1_counterexample :
    (assign_targets [(1, 1), (2, 2), (3, 3)] 13 13 80
        [⟨2, 1/2, 1/2, 1/10, 1/10⟩]).map
      (fun t => (t 0 6 6 4, t 1 6 6 4)) = some (0, 1) := by
  norm_num [assign_targets, assignOne, argmaxFirst, argmaxVal, pyInt, pyIndex,
    tupdate, bbox_iou, iou_inter, corner_area, clampMin0, xywh_to_xyxy, eps,
    max_def, min_def, List.foldlM]
  simp

/-- Claim C1, amended: at the same scenario the box is written to cell
(6,6) with offset (0.5,0.5), grid-unit size (1.3,1.3) and a one-hot class
vector with 1 at index 2 (channel 7), but at ANCHOR INDEX 1 — the anchor
IoU compares the candidate box centred at its within-cell offset against
anchors centred at (0,0), and under that off-centre comparison the (2,2)
anchor attains the highest IoU.  Anchors 0 and 2 receive objectness 0, and
the neighbouring class channels 5 and 6 stay 0. -/
theorem C1_amended_scenario :
    (assign_targets [(1, 1), (2, 2), (3, 3)] 13 13 80
        [⟨2, 1/2, 1/2, 1/10, 1/10⟩]).map
      (fun t => (t 1 6 6 4, t 1 6 6 0, t 1 6 6 1, t 1 6 6 2, t 1 6 6 3,
                 t 1 6 6 7, t 0 6 6 4, t 2 6 6 4, t 1 6 6 5, t 1 6 6 6)) =
    some (1, 1/2, 1/2, 13/10, 13/10, 1, 0, 0, 0, 0) := by
  norm_num [assign_targets, assignOne, argmaxFirst, argmaxVal, pyInt, pyIndex,
    tupdate, bbox_iou, iou_inter, corner_area, clampMin0, xywh_to_xyxy, eps,
    max_def, min_def, List.foldlM]
  simp

/-- Claim C5: when the prediction slice is exactly the target tensor built
from the ground-truth boxes, `YOLOLoss.forward` returns exactly 0 (for any
loss weights): the box and class terms vanish pointwise, the positive
objectness term vanishes because assigned locations hold exactly 1, and the
negative term vanishes because everywhere else holds exactly 0. -/
theorem C5_zero_loss (lambda_box lambda_obj lambda_noobj lambda_cls : ℚ)
    (anchors : List (ℚ × ℚ)) (gh gw C : ℕ) (gts : List GT) (t : Target)
    (h : assign_targets anchors gh gw C gts = some t) :
    YOLOLoss_forward lambda_box lambda_obj lambda_noobj lambda_cls
      anchors gh gw C t gts = some 0 := by
  have h01 : ∀ a j i, t a j i 4 = 0 ∨ t a j i 4 = 1 :=
    assign_obj01 anchors gh gw C gts _ t (fun _ _ _ => Or.inl rfl) h
  have hobj : ∀ a j i : ℕ, t a j i 4 * (t a j i 4 - 1) ^ 2 = 0 := by
    intro a j i
    rcases h01 a j i with hh | hh <;> rw [hh] <;> ring
  have hnoobj : ∀ a j i : ℕ, (1 - t a j i 4) * t a j i 4 ^ 2 = 0 := by
    intro a j i
    rcases h01 a j i with hh | hh <;> rw [hh] <;> ring
  unfold YOLOLoss_forward
  rw [h]
  simp only [Option.map_some']
  congr 1
  simp [compute_loss, hobj, hnoobj]

/-- Witness for C5 at a concrete configuration (empty ground-truth list, so
the target tensor is the all-zero tensor and only the no-object term is in
play). -/
theorem C5_witness :
    YOLOLoss_forward 5 1 (1/2) 1 [(1, 1), (2, 2)] 4 4 2
      (fun _ _ _ _ => 0) [] = some 0 :=
  C5_zero_loss 5 1 (1/2) 1 [(1, 1), (2, 2)] 4 4 2 [] (fun _ _ _ _ => 0) rfl

/-- Claim C6: a single ground-truth box with centre strictly inside [0,1)
and a valid integer class id, on a non-degenerate grid with a non-empty
anchor set, produces a target tensor whose objectness channel is exactly 1
at exactly one (anchor, cell) location and 0 at every other location. -/
theorem C6_single_box (anchors : List (ℚ × ℚ)) (gh gw C : ℕ) (g : GT) (k : ℕ)
    (hA : anchors ≠ []) (hgh : 0 < gh) (hgw : 0 < gw)
    (hx0 : 0 ≤ g.x) (hx1 : g.x < 1) (hy0 : 0 ≤ g.y) (hy1 : g.y < 1)
    (hcls : g.cls = (k : ℚ)) (hkC : k < C) :
    ∃ t a0 j0 i0, assign_targets anchors gh gw C [g] = some t ∧
      a0 < anchors.length ∧ j0 < gh ∧ i0 < gw ∧
      ∀ a j i, t a j i 4 = if a = a0 ∧ j = j0 ∧ i = i0 then 1 else 0 := by
  have hgwQ : (0 : ℚ) < (gw : ℚ) := by exact_mod_cast hgw
  have hghQ : (0 : ℚ) < (gh : ℚ) := by exact_mod_cast hgh
  have hgx0 : 0 ≤ g.x * gw := mul_nonneg hx0 hgwQ.le
  have hgy0 : 0 ≤ g.y * gh := mul_nonneg hy0 hghQ.le
  have hgx1 : g.x * gw < gw := by nlinarith
  have hgy1 : g.y * gh < gh := by nlinarith
  have hgi : pyInt (g.x * gw) = ⌊g.x * gw⌋ := by unfold pyInt; rw [if_pos hgx0]
  have hgj : pyInt (g.y * gh) = ⌊g.y * gh⌋ := by unfold pyInt; rw [if_pos hgy0]
  have hfi0 : (0 : ℤ) ≤ ⌊g.x * gw⌋ := Int.floor_nonneg.mpr hgx0
  have hfj0 : (0 : ℤ) ≤ ⌊g.y * gh⌋ := Int.floor_nonneg.mpr hgy0
  have hfi1 : ⌊g.x * gw⌋ < (gw : ℤ) := Int.floor_lt.mpr (by exact_mod_cast hgx1)
  have hfj1 : ⌊g.y * gh⌋ < (gh : ℤ) := Int.floor_lt.mpr (by exact_mod_cast hgy1)
  have hpi : pyIndex gw (pyInt (g.x * gw)) = some (⌊g.x * gw⌋).toNat := by
    rw [hgi]; unfold pyIndex; rw [if_pos ⟨hfi0, hfi1⟩]
  have hpj : pyIndex gh (pyInt (g.y * gh)) = some (⌊g.y * gh⌋).toNat := by
    rw [hgj]; unfold pyIndex; rw [if_pos ⟨hfj0, hfj1⟩]
  have hiN : (⌊g.x * gw⌋).toNat < gw := by omega
  have hjN : (⌊g.y * gh⌋).toNat < gh := by omega
  have hclsInt : pyInt g.cls = (k : ℤ) := by
    rw [hcls]; unfold pyInt
    rw [if_pos (Nat.cast_nonneg k)]
    exact Int.floor_natCast k
  have hpc : pyIndex (5 + C) (5 + pyInt g.cls) = some (5 + k) := by
    rw [hclsInt]; unfold pyIndex
    have h1 : (0 : ℤ) ≤ 5 + (k : ℤ) := by omega
    have h2 : (5 : ℤ) + (k : ℤ) < ((5 + C : ℕ) : ℤ) := by push_cast; omega
    rw [if_pos ⟨h1, h2⟩]
    exact congrArg some (by omega)
  obtain ⟨v, bn, hvbn⟩ := argmaxVal_isSome (anchors.map fun a =>
      bbox_iou ⟨g.x * gw - pyInt (g.x * gw), g.y * gh - pyInt (g.y * gh),
        g.w * gw, g.h * gh⟩ ⟨0, 0, a.1, a.2⟩) (by simpa using hA)
  have hbn : argmaxFirst (anchors.map fun a =>
      bbox_iou ⟨g.x * gw - pyInt (g.x * gw), g.y * gh - pyInt (g.y * gh),
        g.w * gw, g.h * gh⟩ ⟨0, 0, a.1, a.2⟩) = some bn := by
    rw [argmaxFirst, hvbn]; rfl
  have hbnlen : bn < anchors.length := by
    have := argmaxVal_bound _ _ _ hvbn
    simpa using this
  have hstep := assignOne_some_intro anchors gh gw C (fun _ _ _ _ => 0) g bn
    (⌊g.x * gw⌋).toNat (⌊g.y * gh⌋).toNat (5 + k) hbn hpi hpj hpc
  have hlift : assign_targets anchors gh gw C [g] =
      assignOne anchors gh gw C (fun _ _ _ _ => 0) g := by
    unfold assign_targets
    rw [List.foldlM_cons]
    cases assignOne anchors gh gw C (fun _ _ _ _ => 0) g <;> rfl
  exact ⟨_, bn, (⌊g.y * gh⌋).toNat, (⌊g.x * gw⌋).toNat, hlift.trans hstep,
    hbnlen, hjN, hiN,
    tupdate_chain_obj _ bn _ _ (5 + k) _ _ _ _ (by omega) (fun _ _ _ => rfl)⟩

/-- Witness for C6: 2×2 grid, one anchor, one class, a box centred at
(1/4,1/4) with class 0. -/
theorem C6_witness :
    ∃ t a0 j0 i0,
      assign_targets [(1, 1)] 2 2 1 [⟨0, 1/4, 1/4, 1/2, 1/2⟩] = some t ∧
      a0 < [((1 : ℚ), (1 : ℚ))].length ∧ j0 < 2 ∧ i0 < 2 ∧
      ∀ a j i, t a j i 4 = if a = a0 ∧ j = j0 ∧ i = i0 then 1 else 0 :=
  C6_single_box [(1, 1)] 2 2 1 ⟨0, 1/4, 1/4, 1/2, 1/2⟩ 0
    (by simp) (by norm_num) (by norm_num) (by norm_num) (by norm_num)
    (by norm_num) (by norm_num) (by norm_num) (by norm_num)

/-- The per-box assignment raises whenever the box's normalized centre-x or
centre-y equals 1: the owning-cell index becomes the grid size itself,
outside the valid PyTorch index range for that dimension. -/
theorem assignOne_edge_none (anchors : List (ℚ × ℚ)) (hA : anchors ≠ [])
    (gh gw C : ℕ) (g : GT) (hg : g.x = 1 ∨ g.y = 1) (t : Target) :
    assignOne anchors gh gw C t g = none := by
  obtain ⟨v, bn, hvbn⟩ := argmaxVal_isSome (anchors.map fun a =>
      bbox_iou ⟨g.x * gw - pyInt (g.x * gw), g.y * gh - pyInt (g.y * gh),
        g.w * gw, g.h * gh⟩ ⟨0, 0, a.1, a.2⟩) (by simpa using hA)
  have hbn : argmaxFirst (anchors.map fun a =>
      bbox_iou ⟨g.x * gw - pyInt (g.x * gw), g.y * gh - pyInt (g.y * gh),
        g.w * gw, g.h * gh⟩ ⟨0, 0, a.1, a.2⟩) = some bn := by
    rw [argmaxFirst, hvbn]; rfl
  have hedge : ∀ n : ℕ, pyIndex n ((n : ℕ) : ℤ) = none := by
    intro n; unfold pyIndex
    rw [if_neg (by omega), if_neg (by omega)]
  rcases hg with hx | hy
  · have hnone : pyIndex gw (pyInt (g.x * gw)) = none := by
      rw [hx, one_mul]
      have hcast : pyInt ((gw : ℚ)) = ((gw : ℕ) : ℤ) := by
        unfold pyInt; rw [if_pos (Nat.cast_nonneg gw)]; exact Int.floor_natCast gw
      rw [hcast]; exact hedge gw
    simp only [assignOne, hbn, hnone, Option.some_bind, Option.none_bind]
  · have hnone : pyIndex gh (pyInt (g.y * gh)) = none := by
      rw [hy, one_mul]
      have hcast : pyInt ((gh : ℚ)) = ((gh : ℕ) : ℤ) := by
        unfold pyInt; rw [if_pos (Nat.cast_nonneg gh)]; exact Int.floor_natCast gh
      rw [hcast]; exact hedge gh
    simp only [assignOne, hbn, hnone, Option.some_bind, Option.none_bind]
    cases pyIndex gw (pyInt (g.x * gw)) <;> rfl

/-- Claim C10: target assignment is not total over boxes with centres
normalized to [0,1] — whenever some ground-truth box in the list has
centre-x = 1 (or centre-y = 1), the owning-cell index equals the grid
width (resp. height), the write indexes outside the target tensor, and
the whole call raises an IndexError (modelled as `none`) instead of
producing a target tensor. -/
theorem C10_out_of_grid (anchors : List (ℚ × ℚ)) (hA : anchors ≠ [])
    (gh gw C : ℕ) (pre post : List GT) (g : GT) (hg : g.x = 1 ∨ g.y = 1) :
    assign_targets anchors gh gw C (pre ++ g :: post) = none :=
  foldlM_mid_none anchors gh gw C g
    (assignOne_edge_none anchors hA gh gw C g hg) pre post _

/-- Witness for C10: the 13×13 grid with one box whose centre-x is exactly
1.0 raises. -/
theorem C10_witness :
    assign_targets [(1, 1)] 13 13 1 ([] ++ ⟨0, 1, 1/2, 1/10, 1/10⟩ :: []) = none :=
  C10_out_of_grid [(1, 1)] (by simp) 13 13 1 [] [] ⟨0, 1, 1/2, 1/10, 1/10⟩
    (Or.inl rfl)

end Yolo
